import Mathlib

/-!
Shallow embedding of the Starfield simulation core (src/main.rs).

The program is a bevy app whose per-frame simulation consists of three
passes over the star population, in fixed order: `reset_stars`
(boundary reset), `calculate_velocity` (velocity update) and
`move_stars` (position integration).

Modelling choices:
* `f32` values are embedded as real numbers `ℝ`.
* A vector that has become NaN-contaminated is modelled as `none : Option Vec3`.
  glam's `Vec3::normalize` divides by the vector's length, so normalizing the
  zero vector yields NaN in every component; every arithmetic operation on a
  NaN operand yields NaN, and every `<=` comparison against NaN is false.
  The `Option` layer reproduces exactly this behaviour.
* The random number generator (the `rand` crate, outside this repository) is
  modelled by an explicit stream `u : ℕ → ℝ` of unit samples consumed in
  program order; `rand_in_range lo hi u` maps a unit sample into `[lo, hi]`.
-/

namespace Starfield

/-- Real-valued 3-vector, embedding bevy/glam `Vec3` (components are `f32`
in the source, embedded as `ℝ`). -/
structure Vec3 where
  x : ℝ
  y : ℝ
  z : ℝ

/-- `const ACCELERATION_MULTIPLIER: f32 = 1.0;` -/
def ACCELERATION_MULTIPLIER : ℝ := 1.0

/-- `const SPACE_EXTENT: f32 = 1000.0;` -/
def SPACE_EXTENT : ℝ := 1000.0

/-- Lower endpoint of `const MOVE_SPEED_RANGE: RangeInclusive<f32> = 10.0..=80.0;` -/
def MIN_SPEED : ℝ := 10.0

/-- Upper endpoint of `const MOVE_SPEED_RANGE: RangeInclusive<f32> = 10.0..=80.0;` -/
def MAX_SPEED : ℝ := 80.0

/-- `const NUM_STARS: u32 = 1300;` -/
def NUM_STARS : ℕ := 1300

/-- glam `Vec3::length`: the Euclidean norm `sqrt (x^2 + y^2 + z^2)`. -/
noncomputable def Vec3.length (v : Vec3) : ℝ :=
  Real.sqrt (v.x ^ 2 + v.y ^ 2 + v.z ^ 2)

/-- Componentwise scaling `v * c` of a glam `Vec3` by an `f32` scalar. -/
def Vec3.scale (v : Vec3) (c : ℝ) : Vec3 :=
  ⟨v.x * c, v.y * c, v.z * c⟩

/-- glam `Vec3::normalize`: divides the vector by its length.  On a vector of
length zero the division `0.0 / 0.0` produces NaN in every component, which
this embedding records as `none`. -/
noncomputable def normalizeV (v : Vec3) : Option Vec3 :=
  if v.length = 0 then none
  else some ⟨v.x / v.length, v.y / v.length, v.z / v.length⟩

/-- Vector addition lifted to possibly-NaN vectors: any NaN operand
contaminates the result. -/
def oAdd : Option Vec3 → Option Vec3 → Option Vec3
  | some v, some w => some ⟨v.x + w.x, v.y + w.y, v.z + w.z⟩
  | _, _ => none

/-- Scalar multiplication `v * c` lifted to a possibly-NaN vector: a NaN
component stays NaN after multiplication by any scalar. -/
def oScale (v : Option Vec3) (c : ℝ) : Option Vec3 :=
  v.map (fun w => w.scale c)

/-- State of one star entity: the `Transform::translation` written by the
engine plus the `Star` component's fields `velocity` and `base_speed`.
`pos` and `velocity` are `Option Vec3` so that NaN contamination can be
tracked; `base_speed` only ever holds freshly sampled finite values. -/
structure Star where
  pos : Option Vec3
  velocity : Option Vec3
  base_speed : ℝ

/-- Modelled from the spec: the `rand` crate's `gen_range` on the closed
interval `lo..=hi` (the crate is outside this repository).  It is driven by
an explicit unit sample `u`; for `u ∈ [0, 1]` and `lo ≤ hi` the result
ranges over exactly `[lo, hi]`. -/
def rand_in_range (lo hi u : ℝ) : ℝ :=
  lo + (hi - lo) * u

section
open Classical

/-- The closure `outside_extent` in `reset_stars`:
`!space_extent().contains(&t.x) || !space_extent().contains(&t.y)` where
`space_extent()` is `-SPACE_EXTENT..=SPACE_EXTENT`.  A NaN coordinate fails
both `<=` comparisons inside `contains`, so a NaN-contaminated translation
counts as outside; hence `none ↦ true`. -/
noncomputable def outside_extent (p : Option Vec3) : Bool :=
  match p with
  | none => true
  | some t =>
      decide (¬(-SPACE_EXTENT ≤ t.x ∧ t.x ≤ SPACE_EXTENT)) ||
      decide (¬(-SPACE_EXTENT ≤ t.y ∧ t.y ≤ SPACE_EXTENT))

end

/-- Body of `calculate_velocity` for one star: builds
`xy_coords = Vec3::new(x, y, 0.0)`, normalizes it to get
`movement_direction`, computes
`acceleration = xy_coords.length() * ACCELERATION_MULTIPLIER * dt`, and
returns `movement_direction * acceleration * base_speed`.  When `xy_coords`
has length zero the normalize yields NaN and the product stays NaN
(`NaN * 0.0 = NaN`), hence `none`. -/
noncomputable def calculate_velocity_star (dt : ℝ) (p : Vec3) (base_speed : ℝ) :
    Option Vec3 :=
  let xy_coords : Vec3 := ⟨p.x, p.y, 0⟩
  match normalizeV xy_coords with
  | none => none
  | some movement_direction =>
      some ((movement_direction.scale
        (xy_coords.length * ACCELERATION_MULTIPLIER * dt)).scale base_speed)

/-- One iteration of the `calculate_velocity` loop: writes the computed
velocity into the star, touching nothing else.  A NaN translation makes
`xy_coords`, its length, and hence the product NaN. -/
noncomputable def calcStar (dt : ℝ) (s : Star) : Star :=
  match s.pos with
  | none => { s with velocity := none }
  | some p => { s with velocity := calculate_velocity_star dt p s.base_speed }

/-- The `calculate_velocity` system: the loop body applied to every star. -/
noncomputable def calculate_velocity (dt : ℝ) (stars : List Star) : List Star :=
  stars.map (calcStar dt)

/-- One iteration of the `move_stars` loop:
`transform.translation += star.velocity * time.delta_seconds()`. -/
def moveStar (dt : ℝ) (s : Star) : Star :=
  { s with pos := oAdd s.pos (oScale s.velocity dt) }

/-- The `move_stars` system: the loop body applied to every star. -/
def move_stars (dt : ℝ) (stars : List Star) : List Star :=
  stars.map (moveStar dt)

/-- Body of the `reset_stars` closure for one out-of-bounds star: draws `x`,
`y`, `z` from `half_space_extent()` `= -500.0..=500.0` and a fresh
`base_speed` from `MOVE_SPEED_RANGE`, in that order, consuming the four
samples `u k`, `u (k+1)`, `u (k+2)`, `u (k+3)`; the `velocity` field is not
written. -/
noncomputable def resampledStar (u : ℕ → ℝ) (k : ℕ) (s : Star) : Star :=
  { pos := some ⟨rand_in_range (-(SPACE_EXTENT / 2)) (SPACE_EXTENT / 2) (u k),
                 rand_in_range (-(SPACE_EXTENT / 2)) (SPACE_EXTENT / 2) (u (k + 1)),
                 rand_in_range (-(SPACE_EXTENT / 2)) (SPACE_EXTENT / 2) (u (k + 2))⟩,
    velocity := s.velocity,
    base_speed := rand_in_range MIN_SPEED MAX_SPEED (u (k + 3)) }

/-- The `reset_stars` system: filters the stars whose translation is outside
the space extent and resamples each such star in order, consuming four
consecutive samples from the shared generator per resampled star; stars
inside the extent are not written at all.  `k` is the index of the next
unconsumed sample of the stream `u`. -/
noncomputable def reset_stars (u : ℕ → ℝ) : ℕ → List Star → List Star
  | _, [] => []
  | k, s :: rest =>
    if outside_extent s.pos then
      resampledStar u k s :: reset_stars u (k + 4) rest
    else
      s :: reset_stars u k rest

/-- The `setup` startup system: the loop `for _ in 0..=NUM_STARS` spawns one
star per iteration (an inclusive range, so `NUM_STARS + 1` iterations), with
`x`, `y` drawn from `space_extent()`, `z` from `half_space_extent()`, zero
initial velocity (`Vec3::default()`), and `base_speed` drawn from
`MOVE_SPEED_RANGE` by `Star::default()`; each iteration consumes four
samples in that order. -/
noncomputable def setup (u : ℕ → ℝ) : List Star :=
  (List.range (NUM_STARS + 1)).map fun i =>
    { pos := some ⟨rand_in_range (-SPACE_EXTENT) SPACE_EXTENT (u (4 * i)),
                   rand_in_range (-SPACE_EXTENT) SPACE_EXTENT (u (4 * i + 1)),
                   rand_in_range (-(SPACE_EXTENT / 2)) (SPACE_EXTENT / 2) (u (4 * i + 2))⟩,
      velocity := some ⟨0, 0, 0⟩,
      base_speed := rand_in_range MIN_SPEED MAX_SPEED (u (4 * i + 3)) }

/-! ### Helper lemmas -/

lemma Vec3.length_nonneg (v : Vec3) : 0 ≤ v.length :=
  Real.sqrt_nonneg _

lemma length_xy_eq_zero_iff (x y : ℝ) :
    Vec3.length ⟨x, y, 0⟩ = 0 ↔ x = 0 ∧ y = 0 := by
  unfold Vec3.length
  rw [Real.sqrt_eq_zero']
  constructor
  · intro h
    have hx : x ^ 2 = 0 := le_antisymm (by nlinarith [sq_nonneg y]) (sq_nonneg x)
    have hy : y ^ 2 = 0 := le_antisymm (by nlinarith [sq_nonneg x]) (sq_nonneg y)
    exact ⟨by simpa using sq_eq_zero_iff.mp hx, by simpa using sq_eq_zero_iff.mp hy⟩
  · rintro ⟨hx, hy⟩
    simp [hx, hy]

lemma length_xy_pos (x y : ℝ) (h : ¬(x = 0 ∧ y = 0)) :
    0 < Vec3.length ⟨x, y, 0⟩ := by
  rcases lt_or_eq_of_le (Vec3.length_nonneg ⟨x, y, 0⟩) with hlt | heq
  · exact hlt
  · exact absurd ((length_xy_eq_zero_iff x y).mp heq.symm) h

lemma normalizeV_xy (x y : ℝ) (h : ¬(x = 0 ∧ y = 0)) :
    normalizeV ⟨x, y, 0⟩ =
      some ⟨x / Vec3.length ⟨x, y, 0⟩, y / Vec3.length ⟨x, y, 0⟩, 0⟩ := by
  have hpos := length_xy_pos x y h
  unfold normalizeV
  rw [if_neg (ne_of_gt hpos)]
  simp [zero_div]

lemma length_normalized_xy (x y : ℝ) (h : ¬(x = 0 ∧ y = 0)) :
    Vec3.length ⟨x / Vec3.length ⟨x, y, 0⟩, y / Vec3.length ⟨x, y, 0⟩, 0⟩ = 1 := by
  have hpos := length_xy_pos x y h
  have hne : Vec3.length ⟨x, y, 0⟩ ≠ 0 := ne_of_gt hpos
  have hL2 : (Vec3.length ⟨x, y, 0⟩) ^ 2 = x ^ 2 + y ^ 2 + 0 ^ 2 :=
    Real.sq_sqrt (by positivity)
  show Real.sqrt ((x / Vec3.length ⟨x, y, 0⟩) ^ 2 +
      (y / Vec3.length ⟨x, y, 0⟩) ^ 2 + 0 ^ 2) = 1
  have hdiv : (x / Vec3.length ⟨x, y, 0⟩) ^ 2 + (y / Vec3.length ⟨x, y, 0⟩) ^ 2 + 0 ^ 2
      = (x ^ 2 + y ^ 2 + 0 ^ 2) / (Vec3.length ⟨x, y, 0⟩) ^ 2 := by
    field_simp
  rw [hdiv, ← hL2, div_self (pow_ne_zero 2 hne), Real.sqrt_one]

lemma length_scale (v : Vec3) (c : ℝ) :
    (v.scale c).length = |c| * v.length := by
  show Real.sqrt ((v.x * c) ^ 2 + (v.y * c) ^ 2 + (v.z * c) ^ 2)
      = |c| * Real.sqrt (v.x ^ 2 + v.y ^ 2 + v.z ^ 2)
  rw [show (v.x * c) ^ 2 + (v.y * c) ^ 2 + (v.z * c) ^ 2
      = c ^ 2 * (v.x ^ 2 + v.y ^ 2 + v.z ^ 2) from by ring,
    Real.sqrt_mul (sq_nonneg c), Real.sqrt_sq_eq_abs]

lemma scale_scale (v : Vec3) (a b : ℝ) :
    (v.scale a).scale b = v.scale (a * b) := by
  simp [Vec3.scale, mul_assoc]

lemma calculate_velocity_star_eq (dt bs x y z : ℝ) (h : ¬(x = 0 ∧ y = 0)) :
    calculate_velocity_star dt ⟨x, y, z⟩ bs =
      some (Vec3.scale ⟨x / Vec3.length ⟨x, y, 0⟩, y / Vec3.length ⟨x, y, 0⟩, 0⟩
        (Vec3.length ⟨x, y, 0⟩ * ACCELERATION_MULTIPLIER * dt * bs)) := by
  have hm : calculate_velocity_star dt ⟨x, y, z⟩ bs =
      match normalizeV ⟨x, y, 0⟩ with
      | none => none
      | some d => some ((d.scale
          (Vec3.length ⟨x, y, 0⟩ * ACCELERATION_MULTIPLIER * dt)).scale bs) := rfl
  rw [hm, normalizeV_xy x y h]
  show some ((Vec3.scale _ _).scale bs) = _
  rw [scale_scale]

lemma calculate_velocity_star_origin (dt bs z : ℝ) :
    calculate_velocity_star dt ⟨0, 0, z⟩ bs = none := by
  have h0 : normalizeV ⟨(0 : ℝ), 0, 0⟩ = none := by
    unfold normalizeV
    rw [if_pos ((length_xy_eq_zero_iff 0 0).mpr ⟨rfl, rfl⟩)]
  have hm : calculate_velocity_star dt ⟨0, 0, z⟩ bs =
      match normalizeV ⟨(0 : ℝ), 0, 0⟩ with
      | none => none
      | some d => some ((d.scale
          (Vec3.length ⟨0, 0, 0⟩ * ACCELERATION_MULTIPLIER * dt)).scale bs) := rfl
  rw [hm, h0]

lemma rand_in_range_mem (lo hi u : ℝ) (hle : lo ≤ hi) (h0 : 0 ≤ u) (h1 : u ≤ 1) :
    lo ≤ rand_in_range lo hi u ∧ rand_in_range lo hi u ≤ hi := by
  unfold rand_in_range
  constructor
  · nlinarith
  · nlinarith

lemma reset_stars_length (u : ℕ → ℝ) (k : ℕ) (stars : List Star) :
    (reset_stars u k stars).length = stars.length := by
  induction stars generalizing k with
  | nil => rfl
  | cons s rest ih =>
    unfold reset_stars
    by_cases h : outside_extent s.pos = true
    · rw [if_pos h]
      simp [ih]
    · rw [if_neg h]
      simp [ih]

lemma outside_extent_some_iff (x y z : ℝ) :
    outside_extent (some ⟨x, y, z⟩) = true ↔
      ¬(-SPACE_EXTENT ≤ x ∧ x ≤ SPACE_EXTENT) ∨
      ¬(-SPACE_EXTENT ≤ y ∧ y ≤ SPACE_EXTENT) := by
  unfold outside_extent
  simp only [Bool.or_eq_true, decide_eq_true_eq]

lemma outside_extent_some_false (x y z : ℝ)
    (hx1 : -SPACE_EXTENT ≤ x) (hx2 : x ≤ SPACE_EXTENT)
    (hy1 : -SPACE_EXTENT ≤ y) (hy2 : y ≤ SPACE_EXTENT) :
    outside_extent (some ⟨x, y, z⟩) = false := by
  have hnot : ¬(outside_extent (some ⟨x, y, z⟩) = true) := by
    rw [outside_extent_some_iff]
    push_neg
    exact ⟨⟨hx1, hx2⟩, ⟨hy1, hy2⟩⟩
  simpa using hnot

lemma outside_extent_some_true_x (x y z : ℝ) (hx : SPACE_EXTENT < x) :
    outside_extent (some ⟨x, y, z⟩) = true := by
  rw [outside_extent_some_iff]
  left
  intro hc
  exact absurd hc.2 (not_le.mpr hx)

lemma reset_stars_nil (u : ℕ → ℝ) (k : ℕ) : reset_stars u k [] = [] := rfl

lemma reset_stars_cons_inside (u : ℕ → ℝ) (k : ℕ) (s : Star) (rest : List Star)
    (h : outside_extent s.pos = false) :
    reset_stars u k (s :: rest) = s :: reset_stars u k rest := by
  simp only [reset_stars]
  rw [if_neg (by simp [h])]

lemma reset_stars_cons_outside (u : ℕ → ℝ) (k : ℕ) (s : Star) (rest : List Star)
    (h : outside_extent s.pos = true) :
    reset_stars u k (s :: rest) = resampledStar u k s :: reset_stars u (k + 4) rest := by
  simp only [reset_stars]
  rw [if_pos h]

/-! ### Claim theorems -/

/-- C1: the claim says a star exactly at the origin gets the zero velocity
vector from the Velocity Update pass, with no NaN produced.  The code calls
glam `normalize` on the zero vector, which yields NaN (modelled `none`), and
`NaN * 0.0 * base_speed` stays NaN, so the pass writes a NaN velocity — not
the zero vector — for every `dt`, `base_speed`, `z` and prior velocity. -/
theorem C1_origin_velocity_nan (dt bs z : ℝ) (w : Option Vec3) :
    (calcStar dt { pos := some ⟨0, 0, z⟩, velocity := w, base_speed := bs }).velocity
      = none := by
  show calculate_velocity_star dt ⟨0, 0, z⟩ bs = none
  exact calculate_velocity_star_origin dt bs z

/-- C2: the claim says exactly `NUM_STARS = 1300` stars are created at
startup.  The setup loop is `for _ in 0..=NUM_STARS`, an inclusive range, so
it spawns `NUM_STARS + 1 = 1301` stars; the second half of the claim holds:
none of the three per-frame passes changes the number of stars. -/
theorem C2_population_count (u v : ℕ → ℝ) (k : ℕ) (dt dt2 : ℝ)
    (stars : List Star) :
    (setup u).length = 1301 ∧
    (reset_stars v k stars).length = stars.length ∧
    (calculate_velocity dt stars).length = stars.length ∧
    (move_stars dt2 stars).length = stars.length := by
  refine ⟨?_, reset_stars_length v k stars, ?_, ?_⟩
  · simp [setup, NUM_STARS]
  · simp [calculate_velocity]
  · simp [move_stars]

/-- C3: for a star not at the xy-origin the Velocity Update pass writes
`direction * magnitude` where `direction` is the normalized `(x, y, 0)` and
`magnitude = distance * ACCELERATION_MULTIPLIER * dt * base_speed` with
`ACCELERATION_MULTIPLIER = 1`; the result does not depend on the previous
velocity `w`, and position and `base_speed` are untouched. -/
theorem C3_velocity_formula (dt bs x y z : ℝ) (w : Option Vec3)
    (hxy : ¬(x = 0 ∧ y = 0)) :
    ACCELERATION_MULTIPLIER = 1 ∧
    calcStar dt { pos := some ⟨x, y, z⟩, velocity := w, base_speed := bs } =
      { pos := some ⟨x, y, z⟩,
        velocity := some (Vec3.scale
          ⟨x / Vec3.length ⟨x, y, 0⟩, y / Vec3.length ⟨x, y, 0⟩, 0⟩
          (Vec3.length ⟨x, y, 0⟩ * ACCELERATION_MULTIPLIER * dt * bs)),
        base_speed := bs } := by
  refine ⟨by norm_num [ACCELERATION_MULTIPLIER], ?_⟩
  have hcalc : calcStar dt { pos := some ⟨x, y, z⟩, velocity := w, base_speed := bs }
      = { pos := some ⟨x, y, z⟩,
          velocity := calculate_velocity_star dt ⟨x, y, z⟩ bs,
          base_speed := bs } := rfl
  rw [hcalc, calculate_velocity_star_eq dt bs x y z hxy]

/-- Witness for C3 at the concrete star `(3, 4, 0)`, `dt = 1`,
`base_speed = 2`: distance is `5` and the written velocity is `(6, 8, 0)`. -/
theorem C3_velocity_formula_witness :
    calcStar 1 { pos := some ⟨3, 4, 0⟩, velocity := none, base_speed := 2 } =
      { pos := some ⟨3, 4, 0⟩, velocity := some ⟨6, 8, 0⟩, base_speed := 2 } := by
  have h := (C3_velocity_formula 1 2 3 4 0 none (by norm_num)).2
  have hL : Vec3.length ⟨3, 4, 0⟩ = 5 := by
    show Real.sqrt ((3 : ℝ) ^ 2 + 4 ^ 2 + 0 ^ 2) = 5
    rw [show ((3 : ℝ) ^ 2 + 4 ^ 2 + 0 ^ 2) = 5 ^ 2 from by norm_num,
      Real.sqrt_sq (by norm_num : (0 : ℝ) ≤ 5)]
  rw [h, hL]
  norm_num [Vec3.scale, ACCELERATION_MULTIPLIER]

/-- C5 counterexample: the claim says velocity is a non-negative multiple of
the normalized vector to the star's current (3D) position.  For the star at
`(1, 0, 5)` with `dt = 1`, `base_speed = 10`, the pass writes `(10, 0, 0)`,
which lies in the xy-plane, while every non-negative multiple of the
normalized position `(1/√26, 0, 5/√26)` with zero z-component is the zero
vector: no such multiple equals `(10, 0, 0)`. -/
theorem C5_counterexample :
    normalizeV ⟨1, 0, 5⟩ = some ⟨1 / Real.sqrt 26, 0, 5 / Real.sqrt 26⟩ ∧
    calculate_velocity_star 1 ⟨1, 0, 5⟩ 10 = some ⟨10, 0, 0⟩ ∧
    ∀ c : ℝ, 0 ≤ c →
      Vec3.scale ⟨1 / Real.sqrt 26, 0, 5 / Real.sqrt 26⟩ c ≠ (⟨10, 0, 0⟩ : Vec3) := by
  have hs : (0 : ℝ) < Real.sqrt 26 := Real.sqrt_pos.mpr (by norm_num)
  refine ⟨?_, ?_, ?_⟩
  · have h26 : Vec3.length ⟨1, 0, 5⟩ = Real.sqrt 26 := by
      show Real.sqrt ((1 : ℝ) ^ 2 + 0 ^ 2 + 5 ^ 2) = Real.sqrt 26
      norm_num
    unfold normalizeV
    rw [h26, if_neg (ne_of_gt hs)]
    norm_num
  · rw [calculate_velocity_star_eq 1 10 1 0 5 (by norm_num)]
    have hL : Vec3.length ⟨1, 0, 0⟩ = 1 := by
      show Real.sqrt ((1 : ℝ) ^ 2 + 0 ^ 2 + 0 ^ 2) = 1
      norm_num
    rw [hL]
    norm_num [Vec3.scale, ACCELERATION_MULTIPLIER]
  · intro c hc heq
    have hz := congrArg Vec3.z heq
    have hx := congrArg Vec3.x heq
    simp only [Vec3.scale] at hz hx
    have h5 : 5 / Real.sqrt 26 ≠ 0 := by positivity
    have hc0 : c = 0 := by
      rcases mul_eq_zero.mp hz with h | h
      · exact absurd h h5
      · exact h
    rw [hc0, mul_zero] at hx
    norm_num at hx

/-- C5 amended: for a star whose xy-coordinates are not both zero, and for
non-negative `dt` and `base_speed`, the velocity written by the Velocity
Update pass is a non-negative scalar multiple of the normalized xy-projection
`(x, y, 0)` of the position (not of the full 3D position vector). -/
theorem C5_radial_velocity (dt bs x y z : ℝ) (w : Option Vec3)
    (hxy : ¬(x = 0 ∧ y = 0)) (hdt : 0 ≤ dt) (hbs : 0 ≤ bs) :
    ∃ c : ℝ, ∃ d : Vec3, 0 ≤ c ∧ normalizeV ⟨x, y, 0⟩ = some d ∧
      (calcStar dt { pos := some ⟨x, y, z⟩, velocity := w, base_speed := bs }).velocity
        = some (d.scale c) := by
  refine ⟨Vec3.length ⟨x, y, 0⟩ * ACCELERATION_MULTIPLIER * dt * bs,
    ⟨x / Vec3.length ⟨x, y, 0⟩, y / Vec3.length ⟨x, y, 0⟩, 0⟩,
    ?_, normalizeV_xy x y hxy, ?_⟩
  · have hL := Vec3.length_nonneg (⟨x, y, 0⟩ : Vec3)
    have hA : (0 : ℝ) ≤ ACCELERATION_MULTIPLIER := by norm_num [ACCELERATION_MULTIPLIER]
    exact mul_nonneg (mul_nonneg (mul_nonneg hL hA) hdt) hbs
  · show calculate_velocity_star dt ⟨x, y, z⟩ bs = _
    exact calculate_velocity_star_eq dt bs x y z hxy

/-- Witness for the amended C5 at the star `(3, 4, 7)`, `dt = 1`,
`base_speed = 1`. -/
theorem C5_radial_velocity_witness :
    ∃ c : ℝ, ∃ d : Vec3, 0 ≤ c ∧ normalizeV ⟨3, 4, 0⟩ = some d ∧
      (calcStar 1 { pos := some ⟨3, 4, 7⟩, velocity := none, base_speed := 1 }).velocity
        = some (d.scale c) :=
  C5_radial_velocity 1 1 3 4 7 none (by norm_num) (by norm_num) (by norm_num)

/-- C6: the Position Integration pass maps each star independently to the
star with `position + velocity * dt` (per axis, as the second conjunct shows
on plain coordinates) while leaving `velocity` and `base_speed` unchanged;
it takes no random source and is total. -/
theorem C6_position_integration (dt : ℝ) (stars : List Star) :
    move_stars dt stars = stars.map (fun s =>
      { pos := oAdd s.pos (oScale s.velocity dt),
        velocity := s.velocity, base_speed := s.base_speed }) ∧
    ∀ x y z vx vy vz : ℝ,
      oAdd (some ⟨x, y, z⟩) (oScale (some ⟨vx, vy, vz⟩) dt) =
        some ⟨x + vx * dt, y + vy * dt, z + vz * dt⟩ := by
  constructor
  · rfl
  · intro x y z vx vy vz
    rfl

/-- C7: a star is classified outside by the Boundary Reset pass exactly when
its x- or y-coordinate leaves the closed interval
`[-SPACE_EXTENT, SPACE_EXTENT]`; the z-coordinate plays no role (the test
gives the same answer for any two z values). -/
theorem C7_outside_test (x y z zAlt : ℝ) :
    (outside_extent (some ⟨x, y, z⟩) = true ↔
      ¬(-SPACE_EXTENT ≤ x ∧ x ≤ SPACE_EXTENT) ∨
      ¬(-SPACE_EXTENT ≤ y ∧ y ≤ SPACE_EXTENT)) ∧
    outside_extent (some ⟨x, y, z⟩) = outside_extent (some ⟨x, y, zAlt⟩) :=
  ⟨outside_extent_some_iff x y z, rfl⟩

/-- C9: for two stars with the same `base_speed` and `dt`, both away from
the xy-origin, the farther one receives a velocity of equal-or-greater
magnitude (first conjunct).  The second conjunct evaluates the failing
input of the claim as stated: a star exactly at the origin receives a NaN
velocity (modelled `none`), which has no magnitude at all, so the claimed
comparison cannot hold when the nearer star sits at the origin. -/
theorem C9_speed_monotone (dt bs x1 y1 z1 x2 y2 z2 : ℝ)
    (h1 : ¬(x1 = 0 ∧ y1 = 0)) (h2 : ¬(x2 = 0 ∧ y2 = 0))
    (hd : Vec3.length ⟨x1, y1, 0⟩ ≤ Vec3.length ⟨x2, y2, 0⟩) :
    (∃ v1 v2 : Vec3,
      calculate_velocity_star dt ⟨x1, y1, z1⟩ bs = some v1 ∧
      calculate_velocity_star dt ⟨x2, y2, z2⟩ bs = some v2 ∧
      v1.length ≤ v2.length) ∧
    ∀ zc : ℝ, calculate_velocity_star dt ⟨0, 0, zc⟩ bs = none := by
  constructor
  · refine ⟨_, _, calculate_velocity_star_eq dt bs x1 y1 z1 h1,
      calculate_velocity_star_eq dt bs x2 y2 z2 h2, ?_⟩
    rw [length_scale, length_scale, length_normalized_xy x1 y1 h1,
      length_normalized_xy x2 y2 h2, mul_one, mul_one]
    have key : ∀ L : ℝ, 0 ≤ L →
        |L * ACCELERATION_MULTIPLIER * dt * bs|
          = L * |ACCELERATION_MULTIPLIER * dt * bs| := by
      intro L hL
      rw [show L * ACCELERATION_MULTIPLIER * dt * bs
          = L * (ACCELERATION_MULTIPLIER * dt * bs) from by ring,
        abs_mul, abs_of_nonneg hL]
    rw [key _ (Vec3.length_nonneg ⟨x1, y1, 0⟩), key _ (Vec3.length_nonneg ⟨x2, y2, 0⟩)]
    exact mul_le_mul_of_nonneg_right hd (abs_nonneg _)
  · intro zc
    exact calculate_velocity_star_origin dt bs zc

/-- Witness for C9 at the stars `(3, 4, 0)` (distance 5) and `(6, 8, 0)`
(distance 10) with `dt = 1`, `base_speed = 1`. -/
theorem C9_speed_monotone_witness :
    (∃ v1 v2 : Vec3,
      calculate_velocity_star 1 ⟨3, 4, 0⟩ 1 = some v1 ∧
      calculate_velocity_star 1 ⟨6, 8, 0⟩ 1 = some v2 ∧
      v1.length ≤ v2.length) ∧
    ∀ zc : ℝ, calculate_velocity_star 1 ⟨0, 0, zc⟩ 1 = none :=
  C9_speed_monotone 1 1 3 4 0 6 8 0 (by norm_num) (by norm_num)
    (by
      show Real.sqrt ((3 : ℝ) ^ 2 + 4 ^ 2 + 0 ^ 2)
          ≤ Real.sqrt ((6 : ℝ) ^ 2 + 8 ^ 2 + 0 ^ 2)
      exact Real.sqrt_le_sqrt (by norm_num))

/-- C10: for a star whose xy-coordinates are not both zero, the Velocity
Update pass leaves the position untouched and writes a velocity whose
z-component is exactly zero, so the subsequent Position Integration moves
x and y but returns the z-coordinate unchanged; hence z can change only
through a Boundary Reset for such stars. -/
theorem C10_z_changes_only_on_reset (dt bs x y z : ℝ) (w : Option Vec3)
    (hxy : ¬(x = 0 ∧ y = 0)) :
    (calcStar dt { pos := some ⟨x, y, z⟩, velocity := w, base_speed := bs }).pos
        = some ⟨x, y, z⟩ ∧
    ∃ v : Vec3,
      (calcStar dt { pos := some ⟨x, y, z⟩, velocity := w, base_speed := bs }).velocity
          = some v ∧
      v.z = 0 ∧
      (moveStar dt { pos := some ⟨x, y, z⟩, velocity := some v, base_speed := bs }).pos
          = some ⟨x + v.x * dt, y + v.y * dt, z⟩ := by
  refine ⟨rfl, ?_⟩
  set v : Vec3 := Vec3.scale
      ⟨x / Vec3.length ⟨x, y, 0⟩, y / Vec3.length ⟨x, y, 0⟩, 0⟩
      (Vec3.length ⟨x, y, 0⟩ * ACCELERATION_MULTIPLIER * dt * bs) with hv
  have hvz : v.z = 0 := by
    rw [hv]
    show (0 : ℝ) * _ = 0
    exact zero_mul _
  refine ⟨v, ?_, hvz, ?_⟩
  · show calculate_velocity_star dt ⟨x, y, z⟩ bs = some v
    rw [hv]
    exact calculate_velocity_star_eq dt bs x y z hxy
  · have h1 : (moveStar dt
        { pos := some ⟨x, y, z⟩, velocity := some v, base_speed := bs }).pos
        = some ⟨x + v.x * dt, y + v.y * dt, z + v.z * dt⟩ := rfl
    rw [h1, hvz]
    norm_num

/-- Witness for C10 at the star `(3, 4, 7)`, `dt = 1`, `base_speed = 2`. -/
theorem C10_z_changes_only_on_reset_witness :
    (calcStar 1 { pos := some ⟨3, 4, 7⟩, velocity := none, base_speed := 2 }).pos
        = some ⟨3, 4, 7⟩ ∧
    ∃ v : Vec3,
      (calcStar 1 { pos := some ⟨3, 4, 7⟩, velocity := none, base_speed := 2 }).velocity
          = some v ∧
      v.z = 0 ∧
      (moveStar 1 { pos := some ⟨3, 4, 7⟩, velocity := some v, base_speed := 2 }).pos
          = some ⟨3 + v.x * 1, 4 + v.y * 1, 7⟩ :=
  C10_z_changes_only_on_reset 1 2 3 4 7 none (by norm_num)

/-- C4 counterexample: the claim says that after one Boundary Reset pass
every star has x, y, z in `[-SPACE_EXTENT/2, SPACE_EXTENT/2]`.  A star at
`(900, 0, 0)` is inside the extent `[-1000, 1000]`, so the pass leaves it
completely unchanged — and its x-coordinate `900` is not in `[-500, 500]`. -/
theorem C4_counterexample :
    reset_stars (fun _ => 0) 0
        [{ pos := some ⟨900, 0, 0⟩, velocity := some ⟨0, 0, 0⟩, base_speed := 50 }] =
      [{ pos := some ⟨900, 0, 0⟩, velocity := some ⟨0, 0, 0⟩, base_speed := 50 }] ∧
    ¬((900 : ℝ) ≤ SPACE_EXTENT / 2) := by
  constructor
  · rw [reset_stars_cons_inside _ _ _ _ (outside_extent_some_false 900 0 0
      (by norm_num [SPACE_EXTENT]) (by norm_num [SPACE_EXTENT])
      (by norm_num [SPACE_EXTENT]) (by norm_num [SPACE_EXTENT])), reset_stars_nil]
  · norm_num [SPACE_EXTENT]

/-- C4 amended: after one Boundary Reset pass driven by unit samples in
`[0, 1]`, every star in the output is either one of the input stars, left
exactly as it was (this is what happens to every star inside the extent), or
a freshly resampled star whose x, y, z all lie in
`[-SPACE_EXTENT/2, SPACE_EXTENT/2]` and whose `base_speed` lies in
`[MIN_SPEED, MAX_SPEED]`. -/
theorem C4_bounds_after_reset (u : ℕ → ℝ) (hu : ∀ n, 0 ≤ u n ∧ u n ≤ 1)
    (k : ℕ) (stars : List Star) (s : Star) (hs : s ∈ reset_stars u k stars) :
    s ∈ stars ∨
    ∃ p : Vec3, s.pos = some p ∧
      -(SPACE_EXTENT / 2) ≤ p.x ∧ p.x ≤ SPACE_EXTENT / 2 ∧
      -(SPACE_EXTENT / 2) ≤ p.y ∧ p.y ≤ SPACE_EXTENT / 2 ∧
      -(SPACE_EXTENT / 2) ≤ p.z ∧ p.z ≤ SPACE_EXTENT / 2 ∧
      MIN_SPEED ≤ s.base_speed ∧ s.base_speed ≤ MAX_SPEED := by
  induction stars generalizing k with
  | nil =>
    rw [reset_stars_nil] at hs
    exact absurd hs (List.not_mem_nil s)
  | cons t rest ih =>
    by_cases hout : outside_extent t.pos = true
    · rw [reset_stars_cons_outside u k t rest hout] at hs
      rcases List.mem_cons.mp hs with heq | hmem
      · right
        subst heq
        have hhalf : -(SPACE_EXTENT / 2) ≤ SPACE_EXTENT / 2 := by
          norm_num [SPACE_EXTENT]
        have hspeed : MIN_SPEED ≤ MAX_SPEED := by
          norm_num [MIN_SPEED, MAX_SPEED]
        refine ⟨_, rfl, ?_, ?_, ?_, ?_, ?_, ?_, ?_, ?_⟩
        · exact (rand_in_range_mem _ _ _ hhalf (hu k).1 (hu k).2).1
        · exact (rand_in_range_mem _ _ _ hhalf (hu k).1 (hu k).2).2
        · exact (rand_in_range_mem _ _ _ hhalf (hu (k + 1)).1 (hu (k + 1)).2).1
        · exact (rand_in_range_mem _ _ _ hhalf (hu (k + 1)).1 (hu (k + 1)).2).2
        · exact (rand_in_range_mem _ _ _ hhalf (hu (k + 2)).1 (hu (k + 2)).2).1
        · exact (rand_in_range_mem _ _ _ hhalf (hu (k + 2)).1 (hu (k + 2)).2).2
        · exact (rand_in_range_mem _ _ _ hspeed (hu (k + 3)).1 (hu (k + 3)).2).1
        · exact (rand_in_range_mem _ _ _ hspeed (hu (k + 3)).1 (hu (k + 3)).2).2
      · rcases ih (k + 4) hmem with hin | hbound
        · exact Or.inl (List.mem_cons_of_mem t hin)
        · exact Or.inr hbound
    · have hout2 : outside_extent t.pos = false := by
        simpa using hout
      rw [reset_stars_cons_inside u k t rest hout2] at hs
      rcases List.mem_cons.mp hs with heq | hmem
      · exact Or.inl (heq ▸ List.mem_cons_self t rest)
      · rcases ih k hmem with hin | hbound
        · exact Or.inl (List.mem_cons_of_mem t hin)
        · exact Or.inr hbound

/-- Witness for the amended C4: one star at `(1200, 0, 0)` (outside the
extent), unit samples all `1/2`; the pass replaces it by the star at
`(0, 0, 0)` with `base_speed = 45`, which satisfies the bounds. -/
theorem C4_bounds_after_reset_witness :
    ({ pos := some ⟨0, 0, 0⟩, velocity := some ⟨0, 0, 0⟩, base_speed := 45 } : Star)
        ∈ ([{ pos := some ⟨1200, 0, 0⟩, velocity := some ⟨0, 0, 0⟩,
              base_speed := 50 }] : List Star) ∨
    ∃ p : Vec3,
      (some (⟨0, 0, 0⟩ : Vec3) : Option Vec3) = some p ∧
      -(SPACE_EXTENT / 2) ≤ p.x ∧ p.x ≤ SPACE_EXTENT / 2 ∧
      -(SPACE_EXTENT / 2) ≤ p.y ∧ p.y ≤ SPACE_EXTENT / 2 ∧
      -(SPACE_EXTENT / 2) ≤ p.z ∧ p.z ≤ SPACE_EXTENT / 2 ∧
      MIN_SPEED ≤ (45 : ℝ) ∧ (45 : ℝ) ≤ MAX_SPEED :=
  C4_bounds_after_reset (fun _ => 1 / 2) (by norm_num) 0
    [{ pos := some ⟨1200, 0, 0⟩, velocity := some ⟨0, 0, 0⟩, base_speed := 50 }]
    { pos := some ⟨0, 0, 0⟩, velocity := some ⟨0, 0, 0⟩, base_speed := 45 }
    (by
      rw [reset_stars_cons_outside _ _ _ _
        (outside_extent_some_true_x 1200 0 0 (by norm_num [SPACE_EXTENT])),
        reset_stars_nil]
      norm_num [resampledStar, rand_in_range, SPACE_EXTENT, MIN_SPEED, MAX_SPEED])

/-- C8: characterization of one Boundary Reset pass, star by star.  The star
at index `i` of the output always keeps the velocity of the input star at
index `i` (the pass never writes `velocity`); if the input star was inside
the extent it is returned completely unchanged; if it was outside, its new
position components are three distinct fresh uniform samples from
`[-SPACE_EXTENT/2, SPACE_EXTENT/2]` and its new `base_speed` is a fourth
fresh sample from `[MIN_SPEED, MAX_SPEED]`. -/
theorem C8_reset_writes (u : ℕ → ℝ) (k : ℕ) (stars : List Star) (i : ℕ) (s : Star)
    (hsi : stars.get? i = some s) :
    ∃ s2 : Star, (reset_stars u k stars).get? i = some s2 ∧
      s2.velocity = s.velocity ∧
      (outside_extent s.pos = false → s2 = s) ∧
      (outside_extent s.pos = true → ∃ m : ℕ,
        s2.pos = some ⟨rand_in_range (-(SPACE_EXTENT / 2)) (SPACE_EXTENT / 2) (u m),
                       rand_in_range (-(SPACE_EXTENT / 2)) (SPACE_EXTENT / 2) (u (m + 1)),
                       rand_in_range (-(SPACE_EXTENT / 2)) (SPACE_EXTENT / 2) (u (m + 2))⟩ ∧
        s2.base_speed = rand_in_range MIN_SPEED MAX_SPEED (u (m + 3))) := by
  induction stars generalizing k i with
  | nil => simp at hsi
  | cons t rest ih =>
    cases i with
    | zero =>
      have hts : t = s := by
        rw [List.get?_cons_zero] at hsi
        exact Option.some.inj hsi
      subst hts
      by_cases hout : outside_extent t.pos = true
      · rw [reset_stars_cons_outside u k t rest hout]
        refine ⟨resampledStar u k t, rfl, rfl, ?_, ?_⟩
        · intro hf
          rw [hout] at hf
          simp at hf
        · intro _
          exact ⟨k, rfl, rfl⟩
      · have hout2 : outside_extent t.pos = false := by simpa using hout
        rw [reset_stars_cons_inside u k t rest hout2]
        exact ⟨t, rfl, rfl, fun _ => rfl, fun htrue => absurd htrue hout⟩
    | succ n =>
      have hsi2 : rest.get? n = some s := by simpa using hsi
      by_cases hout : outside_extent t.pos = true
      · rw [reset_stars_cons_outside u k t rest hout]
        obtain ⟨s2, hget, hv, hin, houtc⟩ := ih (k + 4) n hsi2
        exact ⟨s2, by simpa using hget, hv, hin, houtc⟩
      · have hout2 : outside_extent t.pos = false := by simpa using hout
        rw [reset_stars_cons_inside u k t rest hout2]
        obtain ⟨s2, hget, hv, hin, houtc⟩ := ih k n hsi2
        exact ⟨s2, by simpa using hget, hv, hin, houtc⟩

/-- Witness for C8: a single star at `(1200, 0, 0)` (outside the extent),
all unit samples `1/2`. -/
theorem C8_reset_writes_witness :
    ∃ s2 : Star, (reset_stars (fun _ => 1 / 2) 0
        [{ pos := some ⟨1200, 0, 0⟩, velocity := some ⟨0, 0, 0⟩,
           base_speed := 50 }]).get? 0 = some s2 ∧
      s2.velocity = some ⟨0, 0, 0⟩ ∧
      (outside_extent (some ⟨1200, 0, 0⟩) = false →
        s2 = { pos := some ⟨1200, 0, 0⟩, velocity := some ⟨0, 0, 0⟩,
               base_speed := 50 }) ∧
      (outside_extent (some ⟨1200, 0, 0⟩) = true → ∃ _m : ℕ,
        s2.pos = some ⟨rand_in_range (-(SPACE_EXTENT / 2)) (SPACE_EXTENT / 2) ((1 : ℝ) / 2),
                       rand_in_range (-(SPACE_EXTENT / 2)) (SPACE_EXTENT / 2) ((1 : ℝ) / 2),
                       rand_in_range (-(SPACE_EXTENT / 2)) (SPACE_EXTENT / 2) ((1 : ℝ) / 2)⟩ ∧
        s2.base_speed = rand_in_range MIN_SPEED MAX_SPEED ((1 : ℝ) / 2)) :=
  C8_reset_writes (fun _ => 1 / 2) 0
    [{ pos := some ⟨1200, 0, 0⟩, velocity := some ⟨0, 0, 0⟩, base_speed := 50 }]
    0 { pos := some ⟨1200, 0, 0⟩, velocity := some ⟨0, 0, 0⟩, base_speed := 50 } rfl

end Starfield
